import Mathlib

/-!
Verification development for an interactive gesture-driven 3D tree display.

The embedding below translates the core logic of the repository into Lean:

* `generateTreeData` and its helpers embed the procedural layout generator of
  `src/unnamed/part_000` (the variant containing the rejection-sampling photo
  placement; its kind-assignment logic is identical to the variants in
  `src/constants.ts` and `src/unnamed/part_001`).
* `calculateGesture` and `appGestureStep` embed the gesture classifier and the
  per-frame gesture-state update from `src/App.tsx`.
* `visionDetect` embeds the frame-skip logic of
  `src/services/visionService.ts`.
* `lerpVec3`, `particlePositionStep`, `isUnleashedV1`, `isUnleashedV2` embed
  the per-frame interpolation and mode selection of
  `src/components/TreeScene.tsx` (both controller variants present in that
  file).

Modelling conventions: JavaScript numbers are embedded as rationals.  The
transcendental primitives `Math.sqrt`, `Math.cos`, `Math.sin`, `Math.acos`
and the constant `Math.PI` are abstracted into a `MathOracle` parameter;
none of the proved properties depend on their values.  Ambient calls to
`Math.random()` are embedded as successive values of an explicit stream
`rs : Nat -> Rat` consumed in exactly the order the source draws them.
Fallible JavaScript code (property access on a possibly `undefined` array
element, which raises a `TypeError`) is embedded with `Except Unit`.
-/

/-- Vec3 embeds the three.js `Vector3` with rational coordinates. -/
structure Vec3 where
  x : ℚ
  y : ℚ
  z : ℚ
deriving DecidableEq, Inhabited

/-- distSq is the squared Euclidean distance between two `Vec3`.
The source compares `candidate.distanceTo(p) < MIN_PHOTO_DIST`, where
`distanceTo` is the Euclidean norm; since both sides are nonnegative this is
equivalent to `distSq candidate p < MIN_PHOTO_DIST ^ 2`, which is how the
comparison is embedded (the equivalence with the square-root form is proved
in the theorems below). -/
def distSq (a b : Vec3) : ℚ :=
  (a.x - b.x) ^ 2 + (a.y - b.y) ^ 2 + (a.z - b.z) ^ 2

/-- MathOracle abstracts the numeric primitives `Math.sqrt`, `Math.cos`,
`Math.sin`, `Math.acos` and `Math.PI` used by the source. -/
structure MathOracle where
  sqrt : ℚ → ℚ
  cos : ℚ → ℚ
  sin : ℚ → ℚ
  acos : ℚ → ℚ
  pi : ℚ

/-- goldenAngle embeds `Math.PI * (3 - Math.sqrt(5))` from `generateTreeData`. -/
def goldenAngle (M : MathOracle) : ℚ := M.pi * (3 - M.sqrt 5)

/-- TREE_HEIGHT from the layout generator source. -/
def TREE_HEIGHT : ℚ := 14

/-- TREE_RADIUS from the layout generator source. -/
def TREE_RADIUS : ℚ := 15 / 2

/-- PARTICLE_COUNT from the layout generator source. -/
def PARTICLE_COUNT : ℕ := 900

/-- maxLights from `generateTreeData` (`const maxLights = 40`). -/
def maxLights : ℕ := 40

/-- MIN_PHOTO_DIST from `generateTreeData` (`const MIN_PHOTO_DIST = 3.0`). -/
def MIN_PHOTO_DIST : ℚ := 3

/-- PHOTO_FILENAMES from `src/unnamed/part_000`. -/
def PHOTO_FILENAMES : List String := ["1.jpg", "2.png", "3.jpg", "4.jpg"]

/-- PHOTOS embeds `PHOTO_FILENAMES.map(name => ./photos/name)`. -/
def PHOTOS : List String := PHOTO_FILENAMES.map (fun name => "./photos/" ++ name)

/-- GOLD ornament color string from `src/types.ts`. -/
def OrnamentColor.GOLD : String := "#D4AF37"

/-- EMERALD ornament color string from `src/types.ts`. -/
def OrnamentColor.EMERALD : String := "#1B4D3E"

/-- RED ornament color string from `src/types.ts`. -/
def OrnamentColor.RED : String := "#8F332D"

/-- PKind embeds the `type` union of `ParticleData` in `src/types.ts`. -/
inductive PKind where
  | ornament : PKind
  | light : PKind
  | photo : PKind
deriving DecidableEq, Inhabited

/-- ParticleData embeds the interface of the same name in `src/types.ts`. -/
structure ParticleData where
  id : ℕ
  initialPos : Vec3
  randomPos : Vec3
  randomRotation : Vec3
  scale : ℚ
  color : String
  type : PKind
  photoUrl : Option String
deriving DecidableEq, Inhabited

/-- GenState carries the mutable locals of the `generateTreeData` loop:
the accumulated `data` array, `photoIndex`, `lastPhotoIdx`, `lightCount`,
the `placedPhotosUnleashed` list, and the index `k` of the next value of the
random stream to be consumed. -/
structure GenState where
  data : List ParticleData
  photoIndex : ℕ
  lastPhotoIdx : ℤ
  lightCount : ℕ
  placed : List Vec3
  k : ℕ
deriving DecidableEq, Inhabited

/-- initGenState embeds the initialisation of the generator locals
(`photoIndex = 0`, `lastPhotoIdx = -100`, `lightCount = 0`, empty arrays). -/
def initGenState : GenState :=
  { data := [], photoIndex := 0, lastPhotoIdx := -100, lightCount := 0,
    placed := [], k := 0 }

/-- photoRejLoop embeds the bounded rejection-sampling loop
(`while (!validPos && attempts < 50)`) of the photo branch in
`src/unnamed/part_000`.  Each attempt draws `rRing`, `rTheta`, `rY` in
source order and accepts the candidate exactly when no previously placed
photo position is closer than `MIN_PHOTO_DIST` (compared in squared form,
see `distSq`).  Returns the accepted candidate (or `none` after 50 failed
attempts) together with the next random-stream index. -/
def photoRejLoop (M : MathOracle) (rs : ℕ → ℚ) :
    ℕ → List Vec3 → ℕ → Option Vec3 × ℕ
  | 0, _, k => (none, k)
  | fuel + 1, placed, k =>
    let rRing := 15 + rs k * 5
    let rTheta := rs (k + 1) * M.pi * 2
    let rY := (rs (k + 2) - 1 / 2) * 6
    let cand : Vec3 := ⟨rRing * M.cos rTheta, rY, rRing * M.sin rTheta⟩
    if placed.any (fun p => distSq cand p < MIN_PHOTO_DIST ^ 2) then
      photoRejLoop M rs fuel placed (k + 3)
    else
      (some cand, k + 3)

/-- photoBranch embeds the photo case of `generateTreeData`: round-robin
photo URL assignment, update of `lastPhotoIdx`, outward surface offset of
the assembled position along the horizontal normal (three.js `normalize`
divides by the length unless it is zero, in which case it divides by 1),
and the unleashed placement via `photoRejLoop` with the deterministic
fixed-radius ring fallback. -/
def photoBranch (M : MathOracle) (rs : ℕ → ℚ) (i : ℕ) (s : GenState)
    (initialPos : Vec3) (x z scale : ℚ) (k : ℕ) : GenState :=
  let photoUrl : Option String :=
    if 0 < PHOTOS.length then some (PHOTOS.getD (s.photoIndex % PHOTOS.length) "")
    else none
  let photoIndex := if 0 < PHOTOS.length then s.photoIndex + 1 else s.photoIndex
  let len0 := M.sqrt (x ^ 2 + 0 ^ 2 + z ^ 2)
  let len := if len0 = 0 then 1 else len0
  let surfaceOffset : ℚ := 35 / 100
  let pos : Vec3 := ⟨initialPos.x + x / len * surfaceOffset, initialPos.y,
                     initialPos.z + z / len * surfaceOffset⟩
  match photoRejLoop M rs 50 s.placed k with
  | (some cand, kk) =>
      { data := s.data ++ [⟨i, pos, cand, ⟨0, 0, 0⟩, scale,
                            OrnamentColor.GOLD, PKind.photo, photoUrl⟩],
        photoIndex := photoIndex, lastPhotoIdx := (i : ℤ),
        lightCount := s.lightCount, placed := s.placed ++ [cand], k := kk }
  | (none, kk) =>
      let rTheta := rs kk * M.pi * 2
      let fallback : Vec3 := ⟨18 * M.cos rTheta, 0, 18 * M.sin rTheta⟩
      { data := s.data ++ [⟨i, pos, fallback, ⟨0, 0, 0⟩, scale,
                            OrnamentColor.GOLD, PKind.photo, photoUrl⟩],
        photoIndex := photoIndex, lastPhotoIdx := (i : ℤ),
        lightCount := s.lightCount, placed := s.placed, k := kk + 1 }

/-- lightBranch embeds the light case of `generateTreeData`: white color,
fixed scale 0.4, increment of `lightCount`, spherical-shell unleashed
position and random rotation, drawn in source order. -/
def lightBranch (M : MathOracle) (rs : ℕ → ℚ) (i : ℕ) (s : GenState)
    (initialPos : Vec3) (k : ℕ) : GenState :=
  let rTheta := rs k * M.pi * 2
  let rPhi := M.acos (rs (k + 1) * 2 - 1)
  let rRadius := 15 + rs (k + 2) * 20
  let randomPos : Vec3 := ⟨rRadius * M.sin rPhi * M.cos rTheta,
                           rRadius * M.sin rPhi * M.sin rTheta,
                           rRadius * M.cos rPhi⟩
  let randomRotation : Vec3 := ⟨rs (k + 3) * M.pi, rs (k + 4) * M.pi, 0⟩
  { data := s.data ++ [⟨i, initialPos, randomPos, randomRotation, 2 / 5,
                        "#FFFFFF", PKind.light, none⟩],
    photoIndex := s.photoIndex, lastPhotoIdx := s.lastPhotoIdx,
    lightCount := s.lightCount + 1, placed := s.placed, k := k + 5 }

/-- ornamentBranch embeds the default ornament case of `generateTreeData`:
color band selection (with the 1.1 scale factor on the middle band),
spherical-shell unleashed position and random rotation, drawn in source
order. -/
def ornamentBranch (M : MathOracle) (rs : ℕ → ℚ) (i : ℕ) (s : GenState)
    (initialPos : Vec3) (scale : ℚ) (k : ℕ) : GenState :=
  let rand := rs k
  let color := if rand > 3 / 5 then OrnamentColor.GOLD
               else if rand > 1 / 5 then OrnamentColor.EMERALD
               else OrnamentColor.RED
  let scale2 := if rand > 3 / 5 then scale
                else if rand > 1 / 5 then scale * (11 / 10)
                else scale
  let rTheta := rs (k + 1) * M.pi * 2
  let rPhi := M.acos (rs (k + 2) * 2 - 1)
  let rRadius := 12 + rs (k + 3) * 15
  let randomPos : Vec3 := ⟨rRadius * M.sin rPhi * M.cos rTheta,
                           rRadius * M.sin rPhi * M.sin rTheta,
                           rRadius * M.cos rPhi⟩
  let randomRotation : Vec3 := ⟨rs (k + 4) * M.pi, rs (k + 5) * M.pi, 0⟩
  { data := s.data ++ [⟨i, initialPos, randomPos, randomRotation, scale2,
                        color, PKind.ornament, none⟩],
    photoIndex := s.photoIndex, lastPhotoIdx := s.lastPhotoIdx,
    lightCount := s.lightCount, placed := s.placed, k := k + 6 }

/-- nonPhoto embeds the `else if / else` dispatch between the light and
ornament branches: one random draw is always consumed for the light test
(JavaScript evaluates `Math.random() < lightChance` before the
short-circuited `lightCount < maxLights`). -/
def nonPhoto (M : MathOracle) (rs : ℕ → ℚ) (N i : ℕ) (s : GenState)
    (initialPos : Vec3) (scale : ℚ) (k : ℕ) : GenState :=
  let lightChance : ℚ := ((maxLights : ℚ) - (s.lightCount : ℚ)) / ((N : ℚ) - (i : ℚ))
  if rs k < lightChance ∧ s.lightCount < maxLights then
    lightBranch M rs i s initialPos (k + 1)
  else
    ornamentBranch M rs i s initialPos scale (k + 1)

/-- genStep embeds one iteration of the `for` loop of `generateTreeData`
for index `i`: assembled cone placement, then kind dispatch.  The scale
draw always consumes one random value; the photo-chance draw is consumed
only when `canSpawnPhoto` holds (JavaScript short-circuits
`canSpawnPhoto && Math.random() < photoChance`). -/
def genStep (M : MathOracle) (rs : ℕ → ℚ) (N : ℕ) (i : ℕ) (s : GenState) :
    GenState :=
  let t : ℚ := (i : ℚ) / ((N : ℚ) - 1)
  let hNorm := 1 - M.sqrt (1 - t)
  let y := hNorm * TREE_HEIGHT - TREE_HEIGHT / 2
  let radius := TREE_RADIUS * (1 - hNorm)
  let theta := (i : ℚ) * goldenAngle M
  let x := radius * M.cos theta
  let z := radius * M.sin theta
  let initialPos : Vec3 := ⟨x, y, z⟩
  let scale := rs s.k * (1 / 2) + 2 / 5
  let k := s.k + 1
  let photoChance : ℚ := 7 / 100
  if 40 < i ∧ ((i : ℤ) < (N : ℤ) - 40 ∧ 22 < (i : ℤ) - s.lastPhotoIdx) then
    if rs k < photoChance then photoBranch M rs i s initialPos x z scale (k + 1)
    else nonPhoto M rs N i s initialPos scale (k + 1)
  else
    nonPhoto M rs N i s initialPos scale k

/-- genAux runs the first `n` iterations of the `generateTreeData` loop
(with configured element count `N`) from the initial state. -/
def genAux (M : MathOracle) (rs : ℕ → ℚ) (N : ℕ) : ℕ → GenState
  | 0 => initGenState
  | n + 1 => genStep M rs N n (genAux M rs N n)

/-- generateTreeData embeds the whole layout generator, parameterised by
the element count `N` (the source fixes `N = PARTICLE_COUNT = 900`). -/
def generateTreeData (M : MathOracle) (rs : ℕ → ℚ) (N : ℕ) : List ParticleData :=
  (genAux M rs N N).data

/-- genIter runs `b` further iterations of the generator loop, for indices
`start, start+1, ..., start+b-1`, from a given intermediate state; it is
used to evaluate concrete runs in bounded-depth stages. -/
def genIter (M : MathOracle) (rs : ℕ → ℚ) (N start : ℕ) :
    ℕ → GenState → GenState
  | 0, s => s
  | b + 1, s => genStep M rs N (start + b) (genIter M rs N start b s)

/-- Landmark embeds one normalized hand keypoint (image-plane coordinates). -/
structure Landmark where
  x : ℚ
  y : ℚ
deriving DecidableEq, Inhabited

/-- GestureOut embeds the return value of `calculateGesture` in `src/App.tsx`. -/
structure GestureOut where
  isOpen : Bool
  x : ℚ
  y : ℚ
deriving DecidableEq, Inhabited

/-- calculateGesture embeds the classifier of `src/App.tsx`.  An empty hand
list returns the not-detected value.  Otherwise the source reads
`hand[4]`, `hand[8]` and `hand[9]` and immediately accesses their fields;
in JavaScript an out-of-range index yields `undefined` and the field access
raises a `TypeError`, embedded here as `Except.error ()`.  The source
computes `isOpen = Math.sqrt(d2) > 0.08`; since `d2` is nonnegative this is
equivalent to `d2 > (8/100)^2 = 4/625`, which is how the comparison is
embedded (the square-root form is recovered in the theorems below). -/
def calculateGesture (landmarks : List (List Landmark)) :
    Except Unit GestureOut :=
  match landmarks with
  | [] => Except.ok ⟨false, 0, 0⟩
  | hand :: _ =>
    match hand.get? 4, hand.get? 8, hand.get? 9 with
    | some thumbTip, some indexTip, some knuckle =>
      let d2 := (thumbTip.x - indexTip.x) ^ 2 + (thumbTip.y - indexTip.y) ^ 2
      Except.ok ⟨decide (d2 > 4 / 625), (knuckle.x - 1 / 2) * 2, (knuckle.y - 1 / 2) * 2⟩
    | _, _, _ => Except.error ()

/-- synthHand builds a synthetic 21-keypoint hand whose thumb tip sits at
the origin and whose index fingertip sits at distance `d` along the x axis;
all other keypoints are at the origin. -/
def synthHand (d : ℚ) : List Landmark :=
  List.replicate 8 ⟨0, 0⟩ ++ [⟨d, 0⟩] ++ List.replicate 12 ⟨0, 0⟩

/-- HandGestureState embeds the interface of the same name in `src/types.ts`. -/
structure HandGestureState where
  isDetected : Bool
  isOpen : Bool
  posX : ℚ
  posY : ℚ
deriving DecidableEq, Inhabited

/-- initialGestureState embeds the `useState` initial value in `src/App.tsx`
(`isDetected: false, isOpen: false, position: 0,0`). -/
def initialGestureState : HandGestureState := ⟨false, false, 0, 0⟩

/-- appGestureStep embeds the gesture-state update of one pass of `detect`
in `src/App.tsx`, given the previous state and the detector result
(`none` embeds a `null` return of `visionService.detect`).  A `null`
result performs no state update; a processed result with an empty hand
list only clears `isDetected`; a processed result with hands runs
`calculateGesture` (whose `TypeError` propagates). -/
def appGestureStep (prev : HandGestureState)
    (results : Option (List (List Landmark))) :
    Except Unit HandGestureState :=
  match results with
  | none => Except.ok prev
  | some lms =>
    if 0 < lms.length then
      match calculateGesture lms with
      | Except.ok g => Except.ok ⟨true, g.isOpen, g.x, g.y⟩
      | Except.error e => Except.error e
    else
      Except.ok ⟨false, prev.isOpen, prev.posX, prev.posY⟩

/-- appGestureRun folds `appGestureStep` over a sequence of per-frame
detector results. -/
def appGestureRun (g : HandGestureState)
    (inputs : List (Option (List (List Landmark)))) :
    Except Unit HandGestureState :=
  inputs.foldlM appGestureStep g

/-- VisionState embeds the mutable fields of the `VisionService` singleton:
whether `handLandmarker` is non-null, and `lastVideoTime`. -/
structure VisionState where
  ready : Bool
  lastVideoTime : ℚ
deriving DecidableEq, Inhabited

/-- visionDetect embeds `VisionService.detect`: it returns `null` when the
landmarker is missing or when the video timestamp has not advanced, and
otherwise records the timestamp and runs the detector. -/
def visionDetect (st : VisionState) (currentTime : ℚ)
    (detector : ℚ → List (List Landmark)) :
    Option (List (List Landmark)) × VisionState :=
  if st.ready = false then (none, st)
  else if currentTime ≠ st.lastVideoTime then
    (some (detector currentTime), { st with lastVideoTime := currentTime })
  else (none, st)

/-- lerpVec3 embeds `THREE.Vector3.lerp`: each component moves by
`(target - current) * alpha`, with no clamping of `alpha`. -/
def lerpVec3 (a v : Vec3) (alpha : ℚ) : Vec3 :=
  ⟨a.x + (v.x - a.x) * alpha, a.y + (v.y - a.y) * alpha, a.z + (v.z - a.z) * alpha⟩

/-- particlePositionStep embeds the per-frame position update of `Particle`
in `src/components/TreeScene.tsx`:
`positionRef.current.lerp(targetPos, delta * 3)`. -/
def particlePositionStep (pos target : Vec3) (delta : ℚ) : Vec3 :=
  lerpVec3 pos target (delta * 3)

/-- targetPos embeds `isUnleashed ? data.randomPos : data.initialPos`. -/
def targetPos (d : ParticleData) (isUnleashed : Bool) : Vec3 :=
  if isUnleashed then d.randomPos else d.initialPos

/-- isUnleashedV1 embeds the mode selector of the first `TreeController`
variant in `src/components/TreeScene.tsx` (line 206):
`gestureState.isDetected && gestureState.isOpen`. -/
def isUnleashedV1 (g : HandGestureState) : Bool := g.isDetected && g.isOpen

/-- isUnleashedV2 embeds the mode selector of the second `TreeController`
variant in `src/components/TreeScene.tsx` (line 492): `gestureState.isOpen`. -/
def isUnleashedV2 (g : HandGestureState) : Bool := g.isOpen

/-- frameStep advances one element live position by one frame under a given
gesture state, using the first controller variant mode selector. -/
def frameStep (g : HandGestureState) (p : ParticleData) (pos : Vec3)
    (delta : ℚ) : Vec3 :=
  particlePositionStep pos (targetPos p (isUnleashedV1 g)) delta

/-- clampQ is the clamp of a rational to an interval. -/
def clampQ (v lo hi : ℚ) : ℚ := min (max v lo) hi

/-- exponentialApproachSpec is modelled from the spec:
`exponentialApproach(a, b, rate, dt) = a + (b - a) * clamp(rate * dt, 0, 1)`.
It is a second definition following the words of the specification only,
kept for comparison against the embedded code path `particlePositionStep`. -/
def exponentialApproachSpec (a b rate dt : ℚ) : ℚ :=
  a + (b - a) * clampQ (rate * dt) 0 1

/-- M0 is a concrete oracle (all primitives return 0) used for concrete
witness runs of the generator. -/
def M0 : MathOracle :=
  { sqrt := fun _ => 0, cos := fun _ => 0, sin := fun _ => 0,
    acos := fun _ => 0, pi := 0 }

/-- rs0 is the constant-zero random stream used for concrete witness runs. -/
def rs0 : ℕ → ℚ := fun _ => 0

/-- countLight counts the light-kind elements of a generated list. -/
def countLight (l : List ParticleData) : ℕ :=
  List.countP (fun p => decide (p.type = PKind.light)) l

/-- probeData is a concrete generator run (oracle `M0`, stream `rs0`,
`N = 105`) used by witness theorems; it contains photo elements at indices
41 and 64. -/
def probeData : List ParticleData := generateTreeData M0 rs0 105

/-- probe41 is the element of `probeData` at index 41 (a photo element). -/
def probe41 : ParticleData := probeData.getD 41 default

/-- probe64 is the element of `probeData` at index 64 (a photo element). -/
def probe64 : ParticleData := probeData.getD 64 default

/-- sampleParticle is a concrete element whose assembled and unleashed
positions differ, used in concrete mode-selection statements. -/
def sampleParticle : ParticleData :=
  ⟨0, ⟨0, 0, 0⟩, ⟨1, 1, 1⟩, ⟨0, 0, 0⟩, 1, OrnamentColor.GOLD, PKind.ornament, none⟩

/-- lightP is the light element the probe run produces at index `i`. -/
def lightP (i : ℕ) : ParticleData :=
  ⟨i, ⟨0, 7, 0⟩, ⟨0, 0, 0⟩, ⟨0, 0, 0⟩, 2 / 5, "#FFFFFF", PKind.light, none⟩

/-- ornP is the ornament element the probe run produces at index `i`. -/
def ornP (i : ℕ) : ParticleData :=
  ⟨i, ⟨0, 7, 0⟩, ⟨0, 0, 0⟩, ⟨0, 0, 0⟩, 2 / 5, "#8F332D", PKind.ornament, none⟩

/-- photoP41 is the photo element the probe run produces at index 41; its
unleashed position was accepted by the rejection-sampling loop. -/
def photoP41 : ParticleData :=
  ⟨41, ⟨0, 7, 0⟩, ⟨0, -3, 0⟩, ⟨0, 0, 0⟩, 2 / 5, "#D4AF37", PKind.photo,
    some "./photos/1.jpg"⟩

/-- photoP64 is the photo element the probe run produces at index 64; its
unleashed position comes from the fallback ring. -/
def photoP64 : ParticleData :=
  ⟨64, ⟨0, 7, 0⟩, ⟨0, 0, 0⟩, ⟨0, 0, 0⟩, 2 / 5, "#D4AF37", PKind.photo,
    some "./photos/2.png"⟩

/-- probeState35 is the probe-run generator state after 35 iterations. -/
def probeState35 : GenState :=
  ⟨(List.range 35).map lightP, 0, -100, 35, [], 245⟩

/-- probeState70 is the probe-run generator state after 70 iterations. -/
def probeState70 : GenState :=
  ⟨(List.range 40).map lightP ++ [ornP 40, photoP41] ++
      (List.range 22).map (fun j => ornP (42 + j)) ++ [photoP64] ++
      (List.range 5).map (fun j => ornP (65 + j)),
    2, 64, 40, [⟨0, -3, 0⟩], 662⟩

/-- probeState105 is the probe-run generator state after all 105
iterations. -/
def probeState105 : GenState :=
  ⟨(List.range 40).map lightP ++ [ornP 40, photoP41] ++
      (List.range 22).map (fun j => ornP (42 + j)) ++ [photoP64] ++
      (List.range 40).map (fun j => ornP (65 + j)),
    2, 64, 40, [⟨0, -3, 0⟩], 942⟩

/-! ### Basic lemmas about the interpolation law -/

theorem lerpVec3_self (a : Vec3) (t : ℚ) : lerpVec3 a a t = a := by
  simp [lerpVec3]

theorem lerp_no_overshoot (a b t : ℚ) (h0 : 0 ≤ t) (h1 : t ≤ 1) :
    |b - (a + (b - a) * t)| ≤ |b - a| := by
  have h : b - (a + (b - a) * t) = (b - a) * (1 - t) := by ring
  rw [h, abs_mul]
  have h2 : |1 - t| ≤ 1 := by
    rw [abs_le]
    constructor <;> linarith
  exact mul_le_of_le_one_right (abs_nonneg _) h2

/-- C2 counterexample: the per-frame position update is an unclamped lerp
with factor `delta * 3`; at `delta = 1` from position 0 toward target 1 the
code produces 3 while the claimed clamped law produces 1, and the code
overshoots the target. -/
theorem claim2_cex :
    (particlePositionStep ⟨0, 0, 0⟩ ⟨1, 1, 1⟩ 1).x = 3 ∧
    exponentialApproachSpec 0 1 3 1 = 1 ∧
    1 < (particlePositionStep ⟨0, 0, 0⟩ ⟨1, 1, 1⟩ 1).x := by
  refine ⟨?_, ?_, ?_⟩ <;>
    norm_num [particlePositionStep, lerpVec3, exponentialApproachSpec, clampQ]

/-- C2 amended: the per-frame update law moves each component of the live
position by `(target - position) * (delta * 3)` with no clamping of the
factor; at `delta = 0` the position is unchanged, and the approach is
monotone in the distance to the target, without overshoot, whenever
`0 ≤ delta` and `delta * 3 ≤ 1` (for `delta * 3 > 1` the code overshoots,
see the counterexample). -/
theorem claim2_amended (pos target : Vec3) (dt : ℚ) :
    particlePositionStep pos target 0 = pos ∧
    (particlePositionStep pos target dt).x = pos.x + (target.x - pos.x) * (dt * 3) ∧
    (particlePositionStep pos target dt).y = pos.y + (target.y - pos.y) * (dt * 3) ∧
    (particlePositionStep pos target dt).z = pos.z + (target.z - pos.z) * (dt * 3) ∧
    (0 ≤ dt → dt * 3 ≤ 1 →
      |target.x - (particlePositionStep pos target dt).x| ≤ |target.x - pos.x| ∧
      |target.y - (particlePositionStep pos target dt).y| ≤ |target.y - pos.y| ∧
      |target.z - (particlePositionStep pos target dt).z| ≤ |target.z - pos.z|) := by
  refine ⟨by simp [particlePositionStep, lerpVec3], rfl, rfl, rfl, ?_⟩
  intro h0 h1
  have ht0 : 0 ≤ dt * 3 := by linarith
  exact ⟨lerp_no_overshoot _ _ _ ht0 h1, lerp_no_overshoot _ _ _ ht0 h1,
    lerp_no_overshoot _ _ _ ht0 h1⟩

/-- Witness for the amended C2 statement at a concrete input. -/
theorem claim2_amended_witness :
    |(1 : ℚ) - (particlePositionStep ⟨0, 0, 0⟩ ⟨1, 1, 1⟩ (1 / 6)).x| ≤ |(1 : ℚ) - 0| :=
  ((claim2_amended ⟨0, 0, 0⟩ ⟨1, 1, 1⟩ (1 / 6)).2.2.2.2 (by norm_num) (by norm_num)).1

/-- C4: a null (skipped) detector result leaves the gesture signal entirely
unchanged; a processed result with an explicitly empty hand list only clears
the detected flag, keeping the held open flag and position fields; and the
vision service returns null whenever the video timestamp has not advanced. -/
theorem claim4_retention (prev : HandGestureState) (st : VisionState) (ct : ℚ)
    (det : ℚ → List (List Landmark)) :
    appGestureStep prev none = Except.ok prev ∧
    appGestureStep prev (some []) =
      Except.ok ⟨false, prev.isOpen, prev.posX, prev.posY⟩ ∧
    (ct = st.lastVideoTime → (visionDetect st ct det).1 = none) ∧
    (∀ (hand : List Landmark) (rest : List (List Landmark)) (g : GestureOut),
      calculateGesture (hand :: rest) = Except.ok g →
      appGestureStep prev (some (hand :: rest)) =
        Except.ok ⟨true, g.isOpen, g.x, g.y⟩) := by
  refine ⟨rfl, rfl, ?_, ?_⟩
  · intro h
    unfold visionDetect
    split
    · rfl
    · simp [h]
  · intro hand rest g hg
    show (if 0 < (hand :: rest).length then
        match calculateGesture (hand :: rest) with
        | Except.ok g => Except.ok (⟨true, g.isOpen, g.x, g.y⟩ : HandGestureState)
        | Except.error e => Except.error e
      else Except.ok ⟨false, prev.isOpen, prev.posX, prev.posY⟩) =
      Except.ok ⟨true, g.isOpen, g.x, g.y⟩
    rw [if_pos (by simp), hg]

unseal Rat.mul Rat.inv Rat.add Rat.sub in
/-- Witness for C4 at a concrete state and timestamp. -/
theorem claim4_retention_witness :
    (visionDetect ⟨true, 5⟩ 5 (fun _ => [])).1 = none ∧
    appGestureStep ⟨true, true, 1, 2⟩ none = Except.ok ⟨true, true, 1, 2⟩ ∧
    appGestureStep ⟨true, true, 1, 2⟩ (some [synthHand (1 / 20)]) =
      Except.ok ⟨true, false, -1, -1⟩ :=
  ⟨(claim4_retention ⟨true, true, 1, 2⟩ ⟨true, 5⟩ 5 (fun _ => [])).2.2.1 rfl,
   (claim4_retention ⟨true, true, 1, 2⟩ ⟨true, 5⟩ 5 (fun _ => [])).1,
   (claim4_retention ⟨true, true, 1, 2⟩ ⟨true, 5⟩ 5 (fun _ => [])).2.2.2
     (synthHand (1 / 20)) [] ⟨false, -1, -1⟩ (by rfl)⟩

/-- C10: at session start the gesture signal is not detected and closed, so
both controller variants select the Assembled mode and every element target
is its assembled position; each live position starts at the assembled
position, and when only null detector results arrive the gesture state stays
at its initial value and the live position stays exactly at the assembled
position on every frame. -/
theorem claim10_initial (p : ParticleData) (n : ℕ) (deltas : List ℚ) :
    initialGestureState.isDetected = false ∧
    initialGestureState.isOpen = false ∧
    isUnleashedV1 initialGestureState = false ∧
    isUnleashedV2 initialGestureState = false ∧
    targetPos p (isUnleashedV1 initialGestureState) = p.initialPos ∧
    appGestureRun initialGestureState (List.replicate n none) =
      Except.ok initialGestureState ∧
    deltas.foldl (frameStep initialGestureState p) p.initialPos = p.initialPos := by
  refine ⟨rfl, rfl, rfl, rfl, rfl, ?_, ?_⟩
  · induction n with
    | zero => rfl
    | succ n ih =>
      rw [List.replicate_succ]
      simpa [appGestureRun, List.foldlM_cons] using ih
  · induction deltas with
    | nil => rfl
    | cons d l ih =>
      rw [List.foldl_cons]
      have hstep : frameStep initialGestureState p p.initialPos d = p.initialPos := by
        simp [frameStep, particlePositionStep, targetPos, isUnleashedV1,
          initialGestureState, lerpVec3_self]
      rw [hstep]
      exact ih

/-- C3 counterexample: with the controller selector of TreeScene line 206
(mode = isDetected and isOpen) a processed zero-hands frame following an
open detected frame has detected = false yet flips the mode from Unleashed
to Assembled, so the target of an element with distinct layout positions
changes on a frame without a detected hand. -/
theorem claim3_cex :
    isUnleashedV1 ⟨true, true, 0, 0⟩ = true ∧
    appGestureStep ⟨true, true, 0, 0⟩ (some []) =
      Except.ok ⟨false, true, 0, 0⟩ ∧
    isUnleashedV1 ⟨false, true, 0, 0⟩ = false ∧
    targetPos sampleParticle (isUnleashedV1 ⟨true, true, 0, 0⟩) =
      sampleParticle.randomPos ∧
    targetPos sampleParticle (isUnleashedV1 ⟨false, true, 0, 0⟩) =
      sampleParticle.initialPos ∧
    sampleParticle.randomPos ≠ sampleParticle.initialPos :=
  ⟨rfl, rfl, rfl, rfl, rfl, by decide⟩

/-- C3 amended: the mode is selected globally from the gesture signal, but
the two controller variants in the source differ on frames whose updated
signal has detected = false: with the line-492 selector (mode = isOpen) the
mode, and hence every element target, is exactly what it was before the
frame (the open flag is held), while with the line-206 selector
(mode = isDetected and isOpen) such a frame always selects the Assembled
target regardless of the previous mode. -/
theorem claim3_amended (prev s : HandGestureState)
    (r : Option (List (List Landmark))) (p : ParticleData)
    (hstep : appGestureStep prev r = Except.ok s)
    (hdet : s.isDetected = false) :
    targetPos p (isUnleashedV2 s) = targetPos p (isUnleashedV2 prev) ∧
    targetPos p (isUnleashedV1 s) = p.initialPos := by
  have hopen : s.isOpen = prev.isOpen := by
    cases r with
    | none =>
      simp only [appGestureStep] at hstep
      injection hstep with h
      rw [← h]
    | some lms =>
      simp only [appGestureStep] at hstep
      split at hstep
      · split at hstep
        · injection hstep with h
          rw [← h] at hdet
          exact absurd hdet (by simp)
        · exact Except.noConfusion hstep
      · injection hstep with h
        rw [← h]
  constructor
  · rw [isUnleashedV2, isUnleashedV2, hopen]
  · simp [targetPos, isUnleashedV1, hdet]

/-- Witness for the amended C3 statement at a concrete zero-hands frame. -/
theorem claim3_amended_witness :
    targetPos sampleParticle (isUnleashedV2 ⟨false, true, 0, 0⟩) =
      targetPos sampleParticle (isUnleashedV2 ⟨true, true, 0, 0⟩) ∧
    targetPos sampleParticle (isUnleashedV1 ⟨false, true, 0, 0⟩) =
      sampleParticle.initialPos :=
  claim3_amended ⟨true, true, 0, 0⟩ ⟨false, true, 0, 0⟩ (some [])
    sampleParticle rfl rfl

/-- C8 counterexample: a frame whose first hand sample has a single keypoint
(fewer than 21) makes the classifier read a missing keypoint, which raises
(embedded as an error value); the sample is not treated as a no-hand
result. -/
theorem claim8_cex :
    calculateGesture [[(⟨0, 0⟩ : Landmark)]] = Except.error () := rfl

/-- C8 amended: an empty hand list yields the not-detected result without
raising, and a first hand sample classifies without raising exactly when it
has at least 10 keypoints (indices 4, 8 and 9 are read); in particular a
sample with 10 to 20 keypoints, though fewer than the 21 of a full hand, is
classified normally, while a sample with fewer than 10 keypoints raises
rather than being treated as no hand. -/
theorem claim8_amended :
    calculateGesture [] = Except.ok ⟨false, 0, 0⟩ ∧
    ∀ (hand : List Landmark) (rest : List (List Landmark)),
      (∃ g, calculateGesture (hand :: rest) = Except.ok g) ↔ 10 ≤ hand.length := by
  refine ⟨rfl, ?_⟩
  intro hand rest
  by_cases h : 10 ≤ hand.length
  · have h4 : hand.get? 4 = some (hand.get ⟨4, by omega⟩) := List.get?_eq_get _
    have h8 : hand.get? 8 = some (hand.get ⟨8, by omega⟩) := List.get?_eq_get _
    have h9 : hand.get? 9 = some (hand.get ⟨9, by omega⟩) := List.get?_eq_get _
    have hok : ∃ g, calculateGesture (hand :: rest) = Except.ok g := by
      refine ⟨⟨decide (((hand.get ⟨4, by omega⟩).x - (hand.get ⟨8, by omega⟩).x) ^ 2 +
          ((hand.get ⟨4, by omega⟩).y - (hand.get ⟨8, by omega⟩).y) ^ 2 > 4 / 625),
        ((hand.get ⟨9, by omega⟩).x - 1 / 2) * 2,
        ((hand.get ⟨9, by omega⟩).y - 1 / 2) * 2⟩, ?_⟩
      show (match hand.get? 4, hand.get? 8, hand.get? 9 with
        | some thumbTip, some indexTip, some knuckle =>
          let d2 := (thumbTip.x - indexTip.x) ^ 2 + (thumbTip.y - indexTip.y) ^ 2
          Except.ok (⟨decide (d2 > 4 / 625), (knuckle.x - 1 / 2) * 2,
            (knuckle.y - 1 / 2) * 2⟩ : GestureOut)
        | _, _, _ => Except.error ()) = _
      rw [h4, h8, h9]
    exact iff_of_true hok h
  · have h9 : hand.get? 9 = none := List.get?_eq_none.mpr (by omega)
    refine iff_of_false ?_ h
    rintro ⟨g, hg⟩
    simp only [List.get?_eq_getElem?] at h9
    rcases h4 : hand[4]? with _ | t <;> rcases h8 : hand[8]? with _ | u <;>
      simp [calculateGesture, h4, h8, h9] at hg

/-- Witness for the amended C8 statement: a hand sample with exactly 10
keypoints (fewer than 21) classifies without raising. -/
theorem claim8_amended_witness :
    ∃ g, calculateGesture [List.replicate 10 (⟨0, 0⟩ : Landmark)] = Except.ok g :=
  (claim8_amended.2 (List.replicate 10 ⟨0, 0⟩) []).mpr (by decide)

unseal Rat.mul Rat.inv Rat.add Rat.sub in
set_option maxRecDepth 4000 in
/-- C7: the classifier computes the image-plane Euclidean distance between
the thumb-tip keypoint (index 4) and the index-fingertip keypoint (index 8)
and reports open exactly when that distance strictly exceeds 0.08; on
synthetic hands whose tip distance is 0.05, 0.12 and exactly 0.08 it
reports closed, open and closed respectively. -/
theorem claim7_threshold :
    (∀ (hand : List Landmark) (rest : List (List Landmark))
        (thumbTip indexTip knuckle : Landmark),
        hand.get? 4 = some thumbTip → hand.get? 8 = some indexTip →
        hand.get? 9 = some knuckle →
        ∃ g, calculateGesture (hand :: rest) = Except.ok g ∧
          (g.isOpen = true ↔
            (8 / 100 : ℝ) < Real.sqrt
              (((thumbTip.x - indexTip.x) ^ 2 + (thumbTip.y - indexTip.y) ^ 2 : ℚ) : ℝ))) ∧
    (synthHand (1 / 20)).get? 4 = some ⟨0, 0⟩ ∧
    (synthHand (1 / 20)).get? 8 = some ⟨1 / 20, 0⟩ ∧
    (∃ g, calculateGesture [synthHand (1 / 20)] = Except.ok g ∧ g.isOpen = false) ∧
    (∃ g, calculateGesture [synthHand (3 / 25)] = Except.ok g ∧ g.isOpen = true) ∧
    (∃ g, calculateGesture [synthHand (2 / 25)] = Except.ok g ∧ g.isOpen = false) := by
  refine ⟨?_, by decide, by decide,
    ⟨⟨false, -1, -1⟩, by rfl, by rfl⟩,
    ⟨⟨true, -1, -1⟩, by rfl, by rfl⟩,
    ⟨⟨false, -1, -1⟩, by rfl, by rfl⟩⟩
  intro hand rest thumbTip indexTip knuckle h4 h8 h9
  refine ⟨⟨decide ((thumbTip.x - indexTip.x) ^ 2 + (thumbTip.y - indexTip.y) ^ 2 > 4 / 625),
    (knuckle.x - 1 / 2) * 2, (knuckle.y - 1 / 2) * 2⟩, ?_, ?_⟩
  · show (match hand.get? 4, hand.get? 8, hand.get? 9 with
      | some thumbTip, some indexTip, some knuckle =>
        let d2 := (thumbTip.x - indexTip.x) ^ 2 + (thumbTip.y - indexTip.y) ^ 2
        Except.ok (⟨decide (d2 > 4 / 625), (knuckle.x - 1 / 2) * 2,
          (knuckle.y - 1 / 2) * 2⟩ : GestureOut)
      | _, _, _ => Except.error ()) = _
    rw [h4, h8, h9]
  · rw [decide_eq_true_eq, gt_iff_lt,
      Real.lt_sqrt (by norm_num : (0 : ℝ) ≤ 8 / 100),
      show ((8 : ℝ) / 100) ^ 2 = (((4 : ℚ) / 625 : ℚ) : ℝ) by norm_num,
      Rat.cast_lt]

unseal Rat.mul Rat.inv Rat.add Rat.sub in
/-- Witness for C7 at the synthetic closed hand with tip distance 0.05. -/
theorem claim7_threshold_witness :
    ∃ g, calculateGesture [synthHand (1 / 20)] = Except.ok g ∧
      (g.isOpen = true ↔
        (8 / 100 : ℝ) < Real.sqrt
          ((((0 : ℚ) - 1 / 20) ^ 2 + ((0 : ℚ) - 0) ^ 2 : ℚ) : ℝ)) :=
  claim7_threshold.1 (synthHand (1 / 20)) [] ⟨0, 0⟩ ⟨1 / 20, 0⟩ ⟨0, 0⟩
    (by decide) (by decide) (by decide)

/-! ### Concrete evaluation of the probe run, in bounded-depth stages -/

theorem genAux_add (M : MathOracle) (rs : ℕ → ℚ) (N a : ℕ) :
    ∀ b, genAux M rs N (a + b) = genIter M rs N a b (genAux M rs N a) := by
  intro b
  induction b with
  | zero => rfl
  | succ b ih => rw [← Nat.add_assoc, genAux, genIter, ih]

unseal Rat.mul Rat.inv Rat.add Rat.sub in
set_option maxRecDepth 100000 in
set_option maxHeartbeats 2000000 in
theorem probeStage1 : genAux M0 rs0 105 35 = probeState35 := by decide

unseal Rat.mul Rat.inv Rat.add Rat.sub in
set_option maxRecDepth 100000 in
set_option maxHeartbeats 2000000 in
theorem probeStage2 : genIter M0 rs0 105 35 35 probeState35 = probeState70 := by
  decide

unseal Rat.mul Rat.inv Rat.add Rat.sub in
set_option maxRecDepth 100000 in
set_option maxHeartbeats 2000000 in
theorem probeStage3 : genIter M0 rs0 105 70 35 probeState70 = probeState105 := by
  decide

theorem probeRun_eval : genAux M0 rs0 105 105 = probeState105 := by
  rw [show (105 : ℕ) = 70 + 35 from rfl, genAux_add,
    show (70 : ℕ) = 35 + 35 from rfl, genAux_add, probeStage1, probeStage2,
    probeStage3]

theorem probeData_eval : generateTreeData M0 rs0 105 = probeState105.data := by
  rw [generateTreeData, probeRun_eval]

unseal Rat.mul Rat.inv Rat.add Rat.sub in
set_option maxRecDepth 10000 in
theorem probe41_eq : probe41 = photoP41 := by
  unfold probe41 probeData
  rw [probeData_eval]
  decide

unseal Rat.mul Rat.inv Rat.add Rat.sub in
set_option maxRecDepth 10000 in
theorem probe64_eq : probe64 = photoP64 := by
  unfold probe64 probeData
  rw [probeData_eval]
  decide

unseal Rat.mul Rat.inv Rat.add Rat.sub in
set_option maxRecDepth 10000 in
theorem probe41_mem : probe41 ∈ generateTreeData M0 rs0 105 := by
  rw [probe41_eq, probeData_eval]
  decide

unseal Rat.mul Rat.inv Rat.add Rat.sub in
set_option maxRecDepth 10000 in
theorem probe64_mem : probe64 ∈ generateTreeData M0 rs0 105 := by
  rw [probe64_eq, probeData_eval]
  decide

/-! ### Structural lemmas about one generator step -/

theorem distSq_comm (a b : Vec3) : distSq a b = distSq b a := by
  unfold distSq
  ring

theorem photoBranch_shape (M : MathOracle) (rs : ℕ → ℚ) (i : ℕ) (s : GenState)
    (pos : Vec3) (x z sc : ℚ) (k : ℕ) :
    ∃ p : ParticleData,
      (photoBranch M rs i s pos x z sc k).data = s.data ++ [p] ∧
      p.id = i ∧ p.type = PKind.photo ∧
      (photoBranch M rs i s pos x z sc k).lastPhotoIdx = (i : ℤ) ∧
      (photoBranch M rs i s pos x z sc k).lightCount = s.lightCount ∧
      ((photoBranch M rs i s pos x z sc k).placed = s.placed ∨
        ∃ kk, photoRejLoop M rs 50 s.placed k = (some p.randomPos, kk) ∧
          (photoBranch M rs i s pos x z sc k).placed = s.placed ++ [p.randomPos]) := by
  unfold photoBranch
  rcases heq : photoRejLoop M rs 50 s.placed k with ⟨co, kk⟩
  cases co with
  | some cand => exact ⟨_, rfl, rfl, rfl, rfl, rfl, Or.inr ⟨kk, rfl, rfl⟩⟩
  | none => exact ⟨_, rfl, rfl, rfl, rfl, rfl, Or.inl rfl⟩

theorem lightBranch_shape (M : MathOracle) (rs : ℕ → ℚ) (i : ℕ) (s : GenState)
    (pos : Vec3) (k : ℕ) :
    ∃ p : ParticleData,
      (lightBranch M rs i s pos k).data = s.data ++ [p] ∧
      p.id = i ∧ p.type = PKind.light ∧
      (lightBranch M rs i s pos k).lastPhotoIdx = s.lastPhotoIdx ∧
      (lightBranch M rs i s pos k).lightCount = s.lightCount + 1 ∧
      (lightBranch M rs i s pos k).placed = s.placed :=
  ⟨_, rfl, rfl, rfl, rfl, rfl, rfl⟩

theorem ornamentBranch_shape (M : MathOracle) (rs : ℕ → ℚ) (i : ℕ) (s : GenState)
    (pos : Vec3) (sc : ℚ) (k : ℕ) :
    ∃ p : ParticleData,
      (ornamentBranch M rs i s pos sc k).data = s.data ++ [p] ∧
      p.id = i ∧ p.type = PKind.ornament ∧
      (ornamentBranch M rs i s pos sc k).lastPhotoIdx = s.lastPhotoIdx ∧
      (ornamentBranch M rs i s pos sc k).lightCount = s.lightCount ∧
      (ornamentBranch M rs i s pos sc k).placed = s.placed :=
  ⟨_, rfl, rfl, rfl, rfl, rfl, rfl⟩

theorem genStep_elim (M : MathOracle) (rs : ℕ → ℚ) (N i : ℕ) (s : GenState)
    (P : GenState → Prop)
    (hphoto : ∀ pos x z sc k, 40 < i → (i : ℤ) < (N : ℤ) - 40 →
      22 < (i : ℤ) - s.lastPhotoIdx → P (photoBranch M rs i s pos x z sc k))
    (hlight : ∀ pos k, s.lightCount < maxLights →
      P (lightBranch M rs i s pos k))
    (horn : ∀ pos sc k, P (ornamentBranch M rs i s pos sc k)) :
    P (genStep M rs N i s) := by
  unfold genStep nonPhoto
  dsimp only
  split
  · next hcan =>
    split
    · exact hphoto _ _ _ _ _ hcan.1 hcan.2.1 hcan.2.2
    · split
      · next hl => exact hlight _ _ hl.2
      · exact horn _ _ _
  · split
    · next hl => exact hlight _ _ hl.2
    · exact horn _ _ _

theorem genStep_shape (M : MathOracle) (rs : ℕ → ℚ) (N i : ℕ) (s : GenState) :
    ∃ p : ParticleData, (genStep M rs N i s).data = s.data ++ [p] ∧ p.id = i := by
  refine genStep_elim M rs N i s
    (fun g => ∃ p : ParticleData, g.data = s.data ++ [p] ∧ p.id = i) ?_ ?_ ?_
  · intro pos x z sc k _ _ _
    obtain ⟨p, hd, hid, _⟩ := photoBranch_shape M rs i s pos x z sc k
    exact ⟨p, hd, hid⟩
  · intro pos k _
    obtain ⟨p, hd, hid, _⟩ := lightBranch_shape M rs i s pos k
    exact ⟨p, hd, hid⟩
  · intro pos sc k
    obtain ⟨p, hd, hid, _⟩ := ornamentBranch_shape M rs i s pos sc k
    exact ⟨p, hd, hid⟩

theorem genAux_map_id (M : MathOracle) (rs : ℕ → ℚ) (N : ℕ) :
    ∀ n, ((genAux M rs N n).data).map (fun p => p.id) = List.range n := by
  intro n
  induction n with
  | zero => rfl
  | succ n ih =>
    obtain ⟨p, hd, hid⟩ := genStep_shape M rs N n (genAux M rs N n)
    rw [genAux, hd, List.map_append, ih, List.range_succ]
    simp [hid]

theorem genData_length (M : MathOracle) (rs : ℕ → ℚ) (N : ℕ) :
    (generateTreeData M rs N).length = N := by
  have h := congrArg List.length (genAux_map_id M rs N N)
  simpa [generateTreeData] using h

/-- C9: for every configured element count N, one run of the layout
generator produces exactly N elements, and the sequence of their ids is
exactly 0, 1, ..., N-1: every id occurs exactly once and in order. -/
theorem claim9_ids (M : MathOracle) (rs : ℕ → ℚ) (N : ℕ) :
    (generateTreeData M rs N).length = N ∧
    (generateTreeData M rs N).map (fun p => p.id) = List.range N :=
  ⟨genData_length M rs N, genAux_map_id M rs N N⟩

/-! ### Light-count invariant -/

theorem countLight_append (l : List ParticleData) (p : ParticleData) :
    countLight (l ++ [p]) =
      countLight l + (if p.type = PKind.light then 1 else 0) := by
  unfold countLight
  rw [List.countP_append]
  simp [List.countP_cons]

theorem genStep_countLight (M : MathOracle) (rs : ℕ → ℚ) (N i : ℕ)
    (s : GenState) (h1 : countLight s.data = s.lightCount)
    (h2 : s.lightCount ≤ maxLights) :
    countLight (genStep M rs N i s).data = (genStep M rs N i s).lightCount ∧
    (genStep M rs N i s).lightCount ≤ maxLights := by
  refine genStep_elim M rs N i s
    (fun g => countLight g.data = g.lightCount ∧ g.lightCount ≤ maxLights) ?_ ?_ ?_
  · intro pos x z sc k _ _ _
    obtain ⟨p, hd, _, hty, _, hlc, _⟩ := photoBranch_shape M rs i s pos x z sc k
    rw [hd, hlc, countLight_append, if_neg (by rw [hty]; decide), h1]
    exact ⟨rfl, h2⟩
  · intro pos k hlt
    obtain ⟨p, hd, _, hty, _, hlc, _⟩ := lightBranch_shape M rs i s pos k
    rw [hd, hlc, countLight_append, if_pos hty, h1]
    exact ⟨rfl, by omega⟩
  · intro pos sc k
    obtain ⟨p, hd, _, hty, _, hlc, _⟩ := ornamentBranch_shape M rs i s pos sc k
    rw [hd, hlc, countLight_append, if_neg (by rw [hty]; decide), h1]
    exact ⟨rfl, h2⟩

theorem genAux_countLight (M : MathOracle) (rs : ℕ → ℚ) (N : ℕ) :
    ∀ n, countLight ((genAux M rs N n).data) = (genAux M rs N n).lightCount ∧
      (genAux M rs N n).lightCount ≤ maxLights := by
  intro n
  induction n with
  | zero =>
    exact ⟨rfl, by show initGenState.lightCount ≤ maxLights; decide⟩
  | succ n ih => exact genStep_countLight M rs N n (genAux M rs N n) ih.1 ih.2

/-- C6: in every run of the layout generator the number of light-kind
elements never exceeds maxLights (40): the bound holds for the state after
any number n of loop iterations, and in particular for the final output. -/
theorem claim6_lightCap (M : MathOracle) (rs : ℕ → ℚ) (N n : ℕ) :
    countLight ((genAux M rs N n).data) ≤ maxLights ∧
    countLight (generateTreeData M rs N) ≤ maxLights := by
  constructor
  · rw [(genAux_countLight M rs N n).1]
    exact (genAux_countLight M rs N n).2
  · rw [generateTreeData, (genAux_countLight M rs N N).1]
    exact (genAux_countLight M rs N N).2

/-! ### Photo index bounds and spacing invariant -/

theorem genStep_photoInv (M : MathOracle) (rs : ℕ → ℚ) (N i : ℕ) (s : GenState)
    (h1 : ∀ p ∈ s.data, p.type = PKind.photo →
      40 < p.id ∧ (p.id : ℤ) < (N : ℤ) - 40 ∧ (p.id : ℤ) ≤ s.lastPhotoIdx)
    (h2 : s.lastPhotoIdx < (i : ℤ))
    (h3 : ∀ p ∈ s.data, ∀ q ∈ s.data, p.type = PKind.photo →
      q.type = PKind.photo → p.id < q.id → (p.id : ℤ) + 22 < (q.id : ℤ)) :
    (∀ p ∈ (genStep M rs N i s).data, p.type = PKind.photo →
      40 < p.id ∧ (p.id : ℤ) < (N : ℤ) - 40 ∧
      (p.id : ℤ) ≤ (genStep M rs N i s).lastPhotoIdx) ∧
    (genStep M rs N i s).lastPhotoIdx < (i : ℤ) + 1 ∧
    (∀ p ∈ (genStep M rs N i s).data, ∀ q ∈ (genStep M rs N i s).data,
      p.type = PKind.photo → q.type = PKind.photo → p.id < q.id →
      (p.id : ℤ) + 22 < (q.id : ℤ)) := by
  refine genStep_elim M rs N i s (fun g =>
      (∀ p ∈ g.data, p.type = PKind.photo →
        40 < p.id ∧ (p.id : ℤ) < (N : ℤ) - 40 ∧ (p.id : ℤ) ≤ g.lastPhotoIdx) ∧
      g.lastPhotoIdx < (i : ℤ) + 1 ∧
      (∀ p ∈ g.data, ∀ q ∈ g.data, p.type = PKind.photo →
        q.type = PKind.photo → p.id < q.id → (p.id : ℤ) + 22 < (q.id : ℤ)))
    ?_ ?_ ?_
  · intro pos x z sc k h40 hN hgap
    obtain ⟨pp, hd, hip, htp, hlast, _, _⟩ := photoBranch_shape M rs i s pos x z sc k
    rw [hd, hlast]
    refine ⟨?_, by omega, ?_⟩
    · intro q hq hqty
      rcases List.mem_append.1 hq with hq | hq
      · obtain ⟨hA, hB, hC⟩ := h1 q hq hqty
        exact ⟨hA, hB, by omega⟩
      · rw [List.mem_singleton] at hq
        subst hq
        rw [hip]
        exact ⟨h40, hN, le_refl _⟩
    · intro a ha b hb haty hbty hlt
      rcases List.mem_append.1 ha with ha | ha
      · rcases List.mem_append.1 hb with hb | hb
        · exact h3 a ha b hb haty hbty hlt
        · rw [List.mem_singleton] at hb
          obtain ⟨_, _, hC⟩ := h1 a ha haty
          rw [hb, hip]
          omega
      · rcases List.mem_append.1 hb with hb | hb
        · rw [List.mem_singleton] at ha
          obtain ⟨_, _, hC⟩ := h1 b hb hbty
          rw [ha, hip] at hlt
          omega
        · rw [List.mem_singleton] at ha
          rw [List.mem_singleton] at hb
          rw [ha, hb] at hlt
          omega
  · intro pos k _
    obtain ⟨pp, hd, hip, htp, hlast, _, _⟩ := lightBranch_shape M rs i s pos k
    rw [hd, hlast]
    refine ⟨?_, by omega, ?_⟩
    · intro q hq hqty
      rcases List.mem_append.1 hq with hq | hq
      · exact h1 q hq hqty
      · rw [List.mem_singleton] at hq
        subst hq
        rw [htp] at hqty
        exact absurd hqty (by decide)
    · intro a ha b hb haty hbty hlt
      rcases List.mem_append.1 ha with ha | ha
      · rcases List.mem_append.1 hb with hb | hb
        · exact h3 a ha b hb haty hbty hlt
        · rw [List.mem_singleton] at hb
          subst hb
          rw [htp] at hbty
          exact absurd hbty (by decide)
      · rw [List.mem_singleton] at ha
        subst ha
        rw [htp] at haty
        exact absurd haty (by decide)
  · intro pos sc k
    obtain ⟨pp, hd, hip, htp, hlast, _, _⟩ := ornamentBranch_shape M rs i s pos sc k
    rw [hd, hlast]
    refine ⟨?_, by omega, ?_⟩
    · intro q hq hqty
      rcases List.mem_append.1 hq with hq | hq
      · exact h1 q hq hqty
      · rw [List.mem_singleton] at hq
        subst hq
        rw [htp] at hqty
        exact absurd hqty (by decide)
    · intro a ha b hb haty hbty hlt
      rcases List.mem_append.1 ha with ha | ha
      · rcases List.mem_append.1 hb with hb | hb
        · exact h3 a ha b hb haty hbty hlt
        · rw [List.mem_singleton] at hb
          subst hb
          rw [htp] at hbty
          exact absurd hbty (by decide)
      · rw [List.mem_singleton] at ha
        subst ha
        rw [htp] at haty
        exact absurd haty (by decide)

theorem genAux_photoInv (M : MathOracle) (rs : ℕ → ℚ) (N : ℕ) :
    ∀ n, (∀ p ∈ (genAux M rs N n).data, p.type = PKind.photo →
      40 < p.id ∧ (p.id : ℤ) < (N : ℤ) - 40 ∧
      (p.id : ℤ) ≤ (genAux M rs N n).lastPhotoIdx) ∧
    (genAux M rs N n).lastPhotoIdx < (n : ℤ) ∧
    (∀ p ∈ (genAux M rs N n).data, ∀ q ∈ (genAux M rs N n).data,
      p.type = PKind.photo → q.type = PKind.photo → p.id < q.id →
      (p.id : ℤ) + 22 < (q.id : ℤ)) := by
  intro n
  induction n with
  | zero =>
    refine ⟨?_, ?_, ?_⟩
    · intro p hp
      exact absurd hp (List.not_mem_nil p)
    · show initGenState.lastPhotoIdx < ((0 : ℕ) : ℤ)
      decide
    · intro p hp
      exact absurd hp (List.not_mem_nil p)
  | succ n ih =>
    have h := genStep_photoInv M rs N n (genAux M rs N n) ih.1 ih.2.1 ih.2.2
    refine ⟨h.1, ?_, h.2.2⟩
    rw [Nat.cast_succ]
    exact h.2.1

/-- C5: for every generated element of photo kind, its index lies strictly
between 40 and N - 40, and any two distinct photo elements are at least 22
indices apart (the code in fact enforces a gap strictly greater than 22),
so each photo is at least 22 indices after the previously selected one. -/
theorem claim5_photoSpacing (M : MathOracle) (rs : ℕ → ℚ) (N : ℕ) :
    (∀ p ∈ generateTreeData M rs N, p.type = PKind.photo →
      40 < p.id ∧ (p.id : ℤ) < (N : ℤ) - 40) ∧
    (∀ p ∈ generateTreeData M rs N, ∀ q ∈ generateTreeData M rs N,
      p.type = PKind.photo → q.type = PKind.photo → p.id < q.id →
      p.id + 22 ≤ q.id) := by
  have h := genAux_photoInv M rs N N
  constructor
  · intro p hp hty
    obtain ⟨hA, hB, _⟩ := h.1 p hp hty
    exact ⟨hA, hB⟩
  · intro p hp q hq hpty hqty hlt
    have hg := h.2.2 p hp q hq hpty hqty hlt
    omega

/-- Witness for C5 at the probe run: its photo elements sit at indices 41
and 64 of a run with N = 105, inside the allowed band and 23 indices
apart. -/
theorem claim5_photoSpacing_witness :
    (40 < probe41.id ∧ (probe41.id : ℤ) < (105 : ℤ) - 40) ∧
    probe41.id + 22 ≤ probe64.id := by
  constructor
  · exact (claim5_photoSpacing M0 rs0 105).1 probe41 probe41_mem
      (by rw [probe41_eq]; decide)
  · exact (claim5_photoSpacing M0 rs0 105).2 probe41 probe41_mem probe64
      probe64_mem (by rw [probe41_eq]; decide) (by rw [probe64_eq]; decide)
      (by rw [probe41_eq, probe64_eq]; decide)

/-! ### Rejection-sampling separation invariant -/

theorem photoRejLoop_accept (M : MathOracle) (rs : ℕ → ℚ) :
    ∀ (fuel : ℕ) (placed : List Vec3) (k kk : ℕ) (c : Vec3),
      photoRejLoop M rs fuel placed k = (some c, kk) →
      ∀ q ∈ placed, MIN_PHOTO_DIST ^ 2 ≤ distSq c q := by
  intro fuel
  induction fuel with
  | zero =>
    intro placed k kk c h
    exact absurd h (by simp [photoRejLoop])
  | succ n ih =>
    intro placed k kk c h q hq
    simp only [photoRejLoop] at h
    split at h
    · exact ih placed (k + 3) kk c h q hq
    · next hany =>
      simp only [Prod.mk.injEq, Option.some.injEq] at h
      rw [← h.1]
      rw [List.any_eq_true] at hany
      push_neg at hany
      have hx := hany q hq
      simp only [ne_eq, decide_eq_true_eq] at hx
      exact le_of_not_lt hx

theorem genStep_placed (M : MathOracle) (rs : ℕ → ℚ) (N i : ℕ) (s : GenState)
    (hpair : List.Pairwise (fun a b => MIN_PHOTO_DIST ^ 2 ≤ distSq a b) s.placed)
    (hmem : ∀ v ∈ s.placed, ∃ p, p ∈ s.data ∧ p.type = PKind.photo ∧
      p.randomPos = v) :
    List.Pairwise (fun a b => MIN_PHOTO_DIST ^ 2 ≤ distSq a b)
      (genStep M rs N i s).placed ∧
    ∀ v ∈ (genStep M rs N i s).placed, ∃ p, p ∈ (genStep M rs N i s).data ∧
      p.type = PKind.photo ∧ p.randomPos = v := by
  refine genStep_elim M rs N i s (fun g =>
      List.Pairwise (fun a b => MIN_PHOTO_DIST ^ 2 ≤ distSq a b) g.placed ∧
      ∀ v ∈ g.placed, ∃ p, p ∈ g.data ∧ p.type = PKind.photo ∧
        p.randomPos = v) ?_ ?_ ?_
  · intro pos x z sc k _ _ _
    obtain ⟨pp, hd, _, htp, _, _, hplaced⟩ := photoBranch_shape M rs i s pos x z sc k
    rcases hplaced with hpl | ⟨kk, hrej, hpl⟩
    · rw [hd, hpl]
      refine ⟨hpair, ?_⟩
      intro v hv
      obtain ⟨p, hp, hpt, hpr⟩ := hmem v hv
      exact ⟨p, List.mem_append_left _ hp, hpt, hpr⟩
    · rw [hd, hpl]
      constructor
      · rw [List.pairwise_append]
        refine ⟨hpair, List.pairwise_singleton _ _, ?_⟩
        intro a ha b hb
        rw [List.mem_singleton] at hb
        have hge := photoRejLoop_accept M rs 50 s.placed k kk pp.randomPos hrej a ha
        rw [hb, distSq_comm]
        exact hge
      · intro v hv
        rcases List.mem_append.1 hv with hv | hv
        · obtain ⟨p, hp, hpt, hpr⟩ := hmem v hv
          exact ⟨p, List.mem_append_left _ hp, hpt, hpr⟩
        · rw [List.mem_singleton] at hv
          exact ⟨pp, List.mem_append_right _ (List.mem_singleton.2 rfl), htp,
            hv.symm⟩
  · intro pos k _
    obtain ⟨pp, hd, _, _, _, _, hpl⟩ := lightBranch_shape M rs i s pos k
    rw [hd, hpl]
    refine ⟨hpair, ?_⟩
    intro v hv
    obtain ⟨p, hp, hpt, hpr⟩ := hmem v hv
    exact ⟨p, List.mem_append_left _ hp, hpt, hpr⟩
  · intro pos sc k
    obtain ⟨pp, hd, _, _, _, _, hpl⟩ := ornamentBranch_shape M rs i s pos sc k
    rw [hd, hpl]
    refine ⟨hpair, ?_⟩
    intro v hv
    obtain ⟨p, hp, hpt, hpr⟩ := hmem v hv
    exact ⟨p, List.mem_append_left _ hp, hpt, hpr⟩

theorem genAux_placed (M : MathOracle) (rs : ℕ → ℚ) (N : ℕ) :
    ∀ n, List.Pairwise (fun a b => MIN_PHOTO_DIST ^ 2 ≤ distSq a b)
      (genAux M rs N n).placed ∧
    ∀ v ∈ (genAux M rs N n).placed, ∃ p, p ∈ (genAux M rs N n).data ∧
      p.type = PKind.photo ∧ p.randomPos = v := by
  intro n
  induction n with
  | zero =>
    refine ⟨List.Pairwise.nil, ?_⟩
    intro v hv
    exact absurd hv (List.not_mem_nil v)
  | succ n ih => exact genStep_placed M rs N n (genAux M rs N n) ih.1 ih.2

theorem sep_to_sqrt {d : ℚ} (h : MIN_PHOTO_DIST ^ 2 ≤ d) :
    (3 : ℝ) ≤ Real.sqrt ((d : ℚ) : ℝ) := by
  apply Real.le_sqrt_of_sq_le
  have h9 : (9 : ℚ) ≤ d := by
    have he : MIN_PHOTO_DIST ^ 2 = (9 : ℚ) := by norm_num [MIN_PHOTO_DIST]
    rw [he] at h
    exact h
  calc (3 : ℝ) ^ 2 = ((9 : ℚ) : ℝ) := by norm_num
    _ ≤ ((d : ℚ) : ℝ) := by exact_mod_cast h9

/-- C1: in every run of the layout generator, the positions accepted by the
rejection-sampling loop (the entries of placedPhotosUnleashed, which are
exactly the unleashed positions of the photo elements placed outside the
fallback path) are pairwise at Euclidean distance at least
MIN_PHOTO_DIST = 3 from one another. -/
theorem claim1_photoSeparation (M : MathOracle) (rs : ℕ → ℚ) (N : ℕ) :
    List.Pairwise (fun a b => (3 : ℝ) ≤ Real.sqrt ((distSq a b : ℚ) : ℝ))
      (genAux M rs N N).placed ∧
    ∀ v ∈ (genAux M rs N N).placed, ∃ p, p ∈ generateTreeData M rs N ∧
      p.type = PKind.photo ∧ p.randomPos = v := by
  have h := genAux_placed M rs N N
  exact ⟨h.1.imp (fun hle => sep_to_sqrt hle), h.2⟩

/-- Witness for C1 at the probe run: the accepted position of the photo at
index 41 is an element of the placed list and belongs to a photo-kind
element of the output. -/
theorem claim1_photoSeparation_witness :
    ∃ p, p ∈ generateTreeData M0 rs0 105 ∧ p.type = PKind.photo ∧
      p.randomPos = (⟨0, -3, 0⟩ : Vec3) :=
  (claim1_photoSeparation M0 rs0 105).2 ⟨0, -3, 0⟩
    (by rw [probeRun_eval]; decide)
